import Mathlib

/-!
Verification of the resilient streaming-completion core of the repository:
the retry-with-backoff wrapper (`src/openai-streaming-client/src/error_handler.py`)
and the streaming-completion runner
(`src/.reference/inference_example/inference_request.py`).

The embeddings below translate the Python source into Lean: the impure
function argument of `retry_with_backoff` becomes a map from the call
index (number of prior invocations) to the outcome of that call; the
`time.sleep` and `func()` side effects become an event trace; delays are
rationals; the Python `int` parameter `max_retries` is an `Int`.
-/

/-- Outcome of one invocation of the wrapped function `func()`:
it returns a value, raises `RetryableError`, or raises some other
exception. -/
inductive FuncResult (α : Type) where
  | ok (val : α)
  | retryableErr (err : String)
  | otherErr (err : String)
  deriving DecidableEq, Repr

/-- How a whole `retry_with_backoff` run ends: `func()` returned a value,
the attempt budget was exhausted (the final
`raise Exception("Function failed after {max_retries} attempts")`), or an
exception that is not a `RetryableError` escaped the `except` clause. -/
inductive RetryOutcome (α : Type) where
  | success (val : α)
  | exhausted (msg : String)
  | propagated (err : String)
  deriving DecidableEq, Repr

/-- Observable events of a `retry_with_backoff` run: an invocation of
`func()` (with its 0-based call index) or a `time.sleep(d)`. -/
inductive REvent where
  | attempt (idx : Nat)
  | sleep (d : ℚ)
  deriving DecidableEq, Repr

/-- The message of the exhaustion exception.  The source lacks the
f-string prefix, so the braces are literal text, not interpolation. -/
def exhaustMsg : String := "Function failed after {max_retries} attempts"

/-- The `while retries < max_retries` loop of `retry_with_backoff`,
embedded with the remaining iteration budget `(max_retries - retries).toNat`
as structural fuel (the guard `retries < max_retries` holds iff the fuel is
positive, and each `retries += 1` removes one unit).  `delay` is the current
sleep length, `callIdx` counts prior invocations of `func`.  Returns the
event trace together with the final outcome. -/
def retryLoopFuel {α : Type} (op : Nat → FuncResult α) (max_delay : ℚ) :
    Nat → ℚ → Nat → List REvent × RetryOutcome α
  | 0, _, _ => ([], .exhausted exhaustMsg)
  | fuel + 1, delay, callIdx =>
    match op callIdx with
    | .ok v => ([.attempt callIdx], .success v)
    | .retryableErr _ =>
        let rest := retryLoopFuel op max_delay fuel (min (delay * 2) max_delay)
          (callIdx + 1)
        (.attempt callIdx :: .sleep delay :: rest.1, rest.2)
    | .otherErr e => ([.attempt callIdx], .propagated e)

/-- Direct embedding of the loop of `retry_with_backoff`, keeping the
source's `Int` state `retries` and the guard `retries < max_retries`.
On each iteration it calls `func()`; on `RetryableError` it sleeps
`delay`, sets `delay = min(delay * 2, max_delay)` and increments
`retries`; any other exception propagates; when the guard fails it
raises the exhaustion exception. -/
def retryLoop {α : Type} (op : Nat → FuncResult α) (max_retries : Int)
    (max_delay : ℚ) (retries : Int) (delay : ℚ) (callIdx : Nat) :
    List REvent × RetryOutcome α :=
  if _h : retries < max_retries then
    match op callIdx with
    | .ok v => ([.attempt callIdx], .success v)
    | .retryableErr _ =>
        let rest := retryLoop op max_retries max_delay (retries + 1)
          (min (delay * 2) max_delay) (callIdx + 1)
        (.attempt callIdx :: .sleep delay :: rest.1, rest.2)
    | .otherErr e => ([.attempt callIdx], .propagated e)
  else
    ([], .exhausted exhaustMsg)
  termination_by (max_retries - retries).toNat
  decreasing_by omega

/-- Embedding of `retry_with_backoff(func, max_retries, base_delay, max_delay)`:
`retries = 0`, `delay = base_delay`, then the loop.  Defaults in the
source are `max_retries=3, base_delay=1, max_delay=60`. -/
def retry_with_backoff {α : Type} (op : Nat → FuncResult α)
    (max_retries : Int := 3) (base_delay : ℚ := 1) (max_delay : ℚ := 60) :
    List REvent × RetryOutcome α :=
  retryLoop op max_retries max_delay 0 base_delay 0

/-- The `Int`-state loop runs exactly `(max_retries - retries).toNat`
available iterations: it agrees with the fuel form. -/
theorem retryLoop_eq_fuel {α : Type} (op : Nat → FuncResult α)
    (max_retries : Int) (max_delay : ℚ) :
    ∀ (retries : Int) (delay : ℚ) (callIdx : Nat),
      retryLoop op max_retries max_delay retries delay callIdx =
        retryLoopFuel op max_delay (max_retries - retries).toNat delay callIdx := by
  intro retries delay callIdx
  induction retries, delay, callIdx using
    retryLoop.induct op max_retries max_delay with
  | case1 retries delay callIdx h v hop =>
      rw [retryLoop]
      have hfuel : (max_retries - retries).toNat = (max_retries - retries).toNat - 1 + 1 := by
        omega
      rw [hfuel, retryLoopFuel, hop]
      simp [h]
  | case2 retries delay callIdx h e hop ih =>
      rw [retryLoop]
      have hfuel : (max_retries - retries).toNat = (max_retries - retries).toNat - 1 + 1 := by
        omega
      rw [hfuel, retryLoopFuel, hop]
      have harg : (max_retries - retries).toNat - 1 = (max_retries - (retries + 1)).toNat := by
        omega
      simp [h, harg, ih]
  | case3 retries delay callIdx h e hop =>
      rw [retryLoop]
      have hfuel : (max_retries - retries).toNat = (max_retries - retries).toNat - 1 + 1 := by
        omega
      rw [hfuel, retryLoopFuel, hop]
      simp [h]
  | case4 retries delay callIdx h =>
      rw [retryLoop]
      have hfuel : (max_retries - retries).toNat = 0 := by omega
      rw [hfuel, retryLoopFuel]
      simp [h]

theorem retry_with_backoff_eq_fuel {α : Type} (op : Nat → FuncResult α)
    (max_retries : Int) (base_delay max_delay : ℚ) :
    retry_with_backoff op max_retries base_delay max_delay =
      retryLoopFuel op max_delay max_retries.toNat base_delay 0 := by
  rw [retry_with_backoff, retryLoop_eq_fuel]
  norm_num

/-- One backoff update preserves the closed form: capping twice is capping
once, as long as the cap is nonnegative. -/
theorem min_mul_two_min (x m : ℚ) (hm : 0 ≤ m) :
    min (min x m * 2) m = min (x * 2) m := by
  rcases le_total x m with h | h
  · rw [min_eq_left h]
  · rw [min_eq_right h]
    rw [min_eq_right (by linarith), min_eq_right (by linarith)]

/-- A lookup in a one-element list succeeds only at index 0. -/
theorem getElem?_singleton {a e : REvent} {i : Nat}
    (h : ([a] : List REvent)[i]? = some e) : i = 0 ∧ e = a := by
  cases i with
  | zero =>
      simp only [List.getElem?_cons_zero, Option.some.injEq] at h
      exact ⟨rfl, h.symm⟩
  | succ n =>
      simp at h

/-- Shape of the event trace of the retry loop: under the closed-form
invariant `delay = min (base * 2 ^ callIdx) max_delay`, position `2*k`
holds (if anything) the `(callIdx + k)`-th call of `func`, and position
`2*k + 1` the sleep of length `min (base * 2 ^ (callIdx + k)) max_delay`
that follows it. -/
theorem retryLoopFuel_trace {α : Type} (op : Nat → FuncResult α)
    (base max_delay : ℚ) (hb : 0 < base) (hbm : base ≤ max_delay) :
    ∀ (fuel callIdx k : Nat),
      (∀ e, (retryLoopFuel op max_delay fuel
          (min (base * 2 ^ callIdx) max_delay) callIdx).1[2 * k]? = some e →
        e = .attempt (callIdx + k)) ∧
      (∀ e, (retryLoopFuel op max_delay fuel
          (min (base * 2 ^ callIdx) max_delay) callIdx).1[2 * k + 1]? = some e →
        e = .sleep (min (base * 2 ^ (callIdx + k)) max_delay)) := by
  intro fuel
  induction fuel with
  | zero =>
      intro callIdx k
      constructor <;> intro e he <;> simp [retryLoopFuel] at he
  | succ fuel ih =>
      intro callIdx k
      rcases hop : op callIdx with v | err | err
      · refine ⟨fun e he => ?_, fun e he => ?_⟩
        · simp only [retryLoopFuel, hop] at he
          obtain ⟨hi, hea⟩ := getElem?_singleton he
          have hk : k = 0 := by omega
          subst hk
          rw [hea]
          norm_num
        · simp only [retryLoopFuel, hop] at he
          obtain ⟨hi, _⟩ := getElem?_singleton he
          omega
      · have hstep : min (min (base * 2 ^ callIdx) max_delay * 2) max_delay =
            min (base * 2 ^ (callIdx + 1)) max_delay := by
          rw [min_mul_two_min _ _ (le_of_lt (lt_of_lt_of_le hb hbm)), pow_succ]
          ring_nf
        have ihx := ih (callIdx + 1)
        refine ⟨fun e he => ?_, fun e he => ?_⟩
        · simp only [retryLoopFuel, hop] at he
          cases k with
          | zero =>
              rw [show 2 * 0 = 0 from rfl, List.getElem?_cons_zero] at he
              simp only [Option.some.injEq] at he
              subst he
              norm_num
          | succ k =>
              rw [show 2 * (k + 1) = 2 * k + 1 + 1 from by omega,
                List.getElem?_cons_succ, List.getElem?_cons_succ, hstep] at he
              have hres := (ihx k).1 e he
              rw [show callIdx + 1 + k = callIdx + (k + 1) from by omega] at hres
              exact hres
        · simp only [retryLoopFuel, hop] at he
          cases k with
          | zero =>
              rw [show 2 * 0 + 1 = 0 + 1 from rfl, List.getElem?_cons_succ,
                List.getElem?_cons_zero] at he
              simp only [Option.some.injEq] at he
              subst he
              norm_num
          | succ k =>
              rw [show 2 * (k + 1) + 1 = 2 * k + 1 + 1 + 1 from by omega,
                List.getElem?_cons_succ, List.getElem?_cons_succ, hstep] at he
              have hres := (ihx k).2 e he
              rw [show callIdx + 1 + k = callIdx + (k + 1) from by omega] at hres
              exact hres
      · refine ⟨fun e he => ?_, fun e he => ?_⟩
        · simp only [retryLoopFuel, hop] at he
          obtain ⟨hi, hea⟩ := getElem?_singleton he
          have hk : k = 0 := by omega
          subst hk
          rw [hea]
          norm_num
        · simp only [retryLoopFuel, hop] at he
          obtain ⟨hi, _⟩ := getElem?_singleton he
          omega

/-- The event trace produced when `func` raises `RetryableError` on every
call: one attempt followed by one sleep per loop iteration, the delay
doubling (capped) each time. -/
def allRetryEvents (max_delay : ℚ) : Nat → ℚ → Nat → List REvent
  | 0, _, _ => []
  | fuel + 1, delay, callIdx =>
      .attempt callIdx :: .sleep delay ::
        allRetryEvents max_delay fuel (min (delay * 2) max_delay) (callIdx + 1)

/-- Number of `func()` invocations recorded in an event trace. -/
def attemptCount (evs : List REvent) : Nat :=
  evs.countP fun e => match e with | .attempt _ => true | .sleep _ => false

/-- Number of `time.sleep` calls recorded in an event trace. -/
def sleepCount (evs : List REvent) : Nat :=
  evs.countP fun e => match e with | .attempt _ => false | .sleep _ => true

/-- When every call of `func` raises `RetryableError`, the loop runs its
whole budget, records `allRetryEvents`, and ends in the exhaustion
exception. -/
theorem retryLoopFuel_allRetry {α : Type} (op : Nat → FuncResult α)
    (max_delay : ℚ) (hop : ∀ n, ∃ e, op n = .retryableErr e) :
    ∀ (fuel : Nat) (delay : ℚ) (callIdx : Nat),
      retryLoopFuel op max_delay fuel delay callIdx =
        (allRetryEvents max_delay fuel delay callIdx, .exhausted exhaustMsg) := by
  intro fuel
  induction fuel with
  | zero =>
      intro delay callIdx
      rfl
  | succ fuel ih =>
      intro delay callIdx
      obtain ⟨e, he⟩ := hop callIdx
      rw [retryLoopFuel, he, allRetryEvents]
      simp [ih]

theorem allRetryEvents_attemptCount (max_delay : ℚ) :
    ∀ (fuel : Nat) (delay : ℚ) (callIdx : Nat),
      attemptCount (allRetryEvents max_delay fuel delay callIdx) = fuel := by
  intro fuel
  induction fuel with
  | zero =>
      intro delay callIdx
      rfl
  | succ fuel ih =>
      intro delay callIdx
      rw [allRetryEvents]
      simp only [attemptCount, List.countP_cons] at *
      simp [ih]

theorem allRetryEvents_sleepCount (max_delay : ℚ) :
    ∀ (fuel : Nat) (delay : ℚ) (callIdx : Nat),
      sleepCount (allRetryEvents max_delay fuel delay callIdx) = fuel := by
  intro fuel
  induction fuel with
  | zero =>
      intro delay callIdx
      rfl
  | succ fuel ih =>
      intro delay callIdx
      rw [allRetryEvents]
      simp only [sleepCount, List.countP_cons] at *
      simp [ih]

/-- With a positive budget and all calls failing retryably, the final
recorded event is a sleep: the loop sleeps once more after the last
failed attempt. -/
theorem allRetryEvents_getLast (max_delay : ℚ) :
    ∀ (fuel : Nat) (delay : ℚ) (callIdx : Nat), 0 < fuel →
      ∃ d, (allRetryEvents max_delay fuel delay callIdx).getLast? =
        some (.sleep d) := by
  intro fuel
  induction fuel with
  | zero =>
      intro delay callIdx h
      omega
  | succ fuel ih =>
      intro delay callIdx _
      rcases fuel with _ | fuel
      · exact ⟨delay, rfl⟩
      · obtain ⟨d, hd⟩ := ih (min (delay * 2) max_delay) (callIdx + 1)
          (by omega)
        refine ⟨d, ?_⟩
        rw [allRetryEvents, List.getLast?_cons_cons]
        rw [allRetryEvents] at hd ⊢
        rw [List.getLast?_cons_cons]
        exact hd

/-- A function that raises `RetryableError` on every call. -/
def opAllRetryable : Nat → FuncResult Nat := fun _ => .retryableErr "transient"

/-- A function that raises an exception outside the `RetryableError`
class on every call. -/
def opFatal : Nat → FuncResult Nat := fun _ => .otherErr "fatal"

/-- C2: with `base_delay > 0` and `max_delay ≥ base_delay`, in every run
of `retry_with_backoff` the event at position `2*k` (when present) is the
`(k+1)`-st attempt and the event at position `2*k+1` is the sleep
preceding attempt `k+2`, of length `min (base_delay * 2^k) max_delay`
(with `n = k+2` this is `min (base_delay * 2^(n-2), max_delay)`); the
trace starts at position 0 with attempt 1, so no delay precedes the
first attempt. -/
theorem retry_backoff_delay_schedule {α : Type} (op : Nat → FuncResult α)
    (max_retries : Int) (base_delay max_delay : ℚ)
    (hb : 0 < base_delay) (hbm : base_delay ≤ max_delay) (k : Nat) :
    (∀ e, (retry_with_backoff op max_retries base_delay max_delay).1[2 * k]? =
      some e → e = .attempt k) ∧
    (∀ e, (retry_with_backoff op max_retries base_delay max_delay).1[2 * k + 1]? =
      some e → e = .sleep (min (base_delay * 2 ^ k) max_delay)) := by
  have h0 : min (base_delay * 2 ^ 0) max_delay = base_delay := by
    rw [pow_zero, mul_one, min_eq_left hbm]
  have h := retryLoopFuel_trace op base_delay max_delay hb hbm
    max_retries.toNat 0 k
  rw [h0] at h
  rw [retry_with_backoff_eq_fuel]
  simpa using h

/-- Witness for C2 at `op = opAllRetryable`, `max_retries = 3`,
`base_delay = 1`, `max_delay = 60`, `k = 0`: the event at position 1 of
the trace is the sleep `min (1 * 2^0) 60` before attempt 2. -/
theorem retry_backoff_delay_schedule_witness :
    (retry_with_backoff opAllRetryable 3 1 60).1[2 * 0 + 1]? =
      some (.sleep (min ((1:ℚ) * 2 ^ 0) 60)) := by
  have h : (retry_with_backoff opAllRetryable 3 1 60).1[2 * 0 + 1]? =
      some (.sleep 1) := by
    rw [retry_with_backoff_eq_fuel]
    rfl
  have heq := (retry_backoff_delay_schedule opAllRetryable 3 1 60
    (by norm_num) (by norm_num) 0).2 (.sleep 1) h
  rw [← heq]
  exact h

/-- C3: when every call of `func` raises `RetryableError` and the budget
is positive, `retry_with_backoff` invokes `func` exactly `max_retries`
times and then fails permanently with the exhaustion exception — there is
no `(max_retries + 1)`-th call. -/
theorem retry_all_fail_exactly_max_retries_calls {α : Type}
    (op : Nat → FuncResult α) (max_retries : Int) (base_delay max_delay : ℚ)
    (h1 : 0 < max_retries) (hop : ∀ n, ∃ e, op n = .retryableErr e) :
    (attemptCount (retry_with_backoff op max_retries base_delay max_delay).1 :
      Int) = max_retries ∧
    (retry_with_backoff op max_retries base_delay max_delay).2 =
      .exhausted exhaustMsg := by
  rw [retry_with_backoff_eq_fuel, retryLoopFuel_allRetry op max_delay hop]
  refine ⟨?_, rfl⟩
  rw [allRetryEvents_attemptCount]
  omega

theorem retry_all_fail_exactly_max_retries_calls_witness :
    (0:Int) < 2 ∧
    ((attemptCount (retry_with_backoff opAllRetryable 2 1 60).1 : Int) = 2 ∧
     (retry_with_backoff opAllRetryable 2 1 60).2 = .exhausted exhaustMsg) :=
  ⟨by norm_num, retry_all_fail_exactly_max_retries_calls opAllRetryable 2 1 60
    (by norm_num) (fun n => ⟨"transient", rfl⟩)⟩

/-- C4: when the first call of `func` raises an exception that is not a
`RetryableError` (and the budget is positive, so the call happens at
all), the failure propagates immediately: exactly one invocation, no
sleep, and the outcome is the propagated error. -/
theorem retry_nonretryable_fail_fast {α : Type} (op : Nat → FuncResult α)
    (e : String) (max_retries : Int) (base_delay max_delay : ℚ)
    (h1 : 0 < max_retries) (hop : op 0 = .otherErr e) :
    retry_with_backoff op max_retries base_delay max_delay =
      ([.attempt 0], .propagated e) := by
  rw [retry_with_backoff_eq_fuel]
  have hfuel : max_retries.toNat = max_retries.toNat - 1 + 1 := by omega
  rw [hfuel, retryLoopFuel, hop]

theorem retry_nonretryable_fail_fast_witness :
    (0:Int) < 3 ∧
    retry_with_backoff opFatal 3 1 60 = ([.attempt 0], .propagated "fatal") :=
  ⟨by norm_num, retry_nonretryable_fail_fast opFatal "fatal" 3 1 60
    (by norm_num) rfl⟩

/-- C5 (code bug): the exhaustion exception raised by
`retry_with_backoff` carries the literal text
`Function failed after {max_retries} attempts` — the source string lacks
the f-string prefix, so the message contains no digit at all and in
particular does not identify the numeric value of `max_retries`
(here `3`). -/
theorem retry_exhaustion_message_has_no_count :
    (retry_with_backoff opAllRetryable 3 1 60).2 =
      .exhausted "Function failed after {max_retries} attempts" ∧
    (("Function failed after {max_retries} attempts").toList.all
      fun ch => !ch.isDigit) = true := by
  constructor
  · rw [retry_with_backoff_eq_fuel]
    rfl
  · decide

/-- C9: when every call of `func` raises `RetryableError` and the budget
is positive, the loop sleeps once per failed attempt — including after
the final one: the sleep count equals the attempt count and the last
recorded event is a sleep, even though the exhaustion exception follows
with no further attempt. -/
theorem retry_sleeps_after_final_attempt {α : Type}
    (op : Nat → FuncResult α) (max_retries : Int) (base_delay max_delay : ℚ)
    (h1 : 0 < max_retries) (hop : ∀ n, ∃ e, op n = .retryableErr e) :
    sleepCount (retry_with_backoff op max_retries base_delay max_delay).1 =
      attemptCount (retry_with_backoff op max_retries base_delay max_delay).1 ∧
    (∃ d, (retry_with_backoff op max_retries base_delay max_delay).1.getLast? =
      some (.sleep d)) ∧
    (retry_with_backoff op max_retries base_delay max_delay).2 =
      .exhausted exhaustMsg := by
  rw [retry_with_backoff_eq_fuel, retryLoopFuel_allRetry op max_delay hop]
  refine ⟨?_, ?_, rfl⟩
  · rw [allRetryEvents_sleepCount, allRetryEvents_attemptCount]
  · exact allRetryEvents_getLast max_delay max_retries.toNat base_delay 0
      (by omega)

theorem retry_sleeps_after_final_attempt_witness :
    (0:Int) < 2 ∧
    (sleepCount (retry_with_backoff opAllRetryable 2 1 60).1 =
       attemptCount (retry_with_backoff opAllRetryable 2 1 60).1 ∧
     (∃ d, (retry_with_backoff opAllRetryable 2 1 60).1.getLast? =
       some (.sleep d)) ∧
     (retry_with_backoff opAllRetryable 2 1 60).2 = .exhausted exhaustMsg) :=
  ⟨by norm_num, retry_sleeps_after_final_attempt opAllRetryable 2 1 60
    (by norm_num) (fun n => ⟨"transient", rfl⟩)⟩

/-- C10: with `max_retries ≤ 0` the loop guard `retries < max_retries`
fails at once: `func` is never invoked, nothing is slept, and the
exhaustion exception is raised immediately. -/
theorem retry_nonpositive_budget_no_calls {α : Type}
    (op : Nat → FuncResult α) (max_retries : Int) (base_delay max_delay : ℚ)
    (h : max_retries ≤ 0) :
    retry_with_backoff op max_retries base_delay max_delay =
      ([], .exhausted exhaustMsg) := by
  rw [retry_with_backoff_eq_fuel]
  have hfuel : max_retries.toNat = 0 := by omega
  rw [hfuel]
  rfl

theorem retry_nonpositive_budget_no_calls_witness :
    (0:Int) ≤ 0 ∧
    retry_with_backoff opAllRetryable 0 1 60 = ([], .exhausted exhaustMsg) :=
  ⟨by norm_num, retry_nonpositive_budget_no_calls opAllRetryable 0 1 60
    (by norm_num)⟩

/-!
Embedding of `create_completion` / `get_prompt` / `main` from
`src/.reference/inference_example/inference_request.py`.

A stream chunk is modelled by the content the guard
`if chunk.choices and chunk.choices[0].delta and chunk.choices[0].delta.content:`
inspects: `none` when choices/delta/content are missing or `None`, and
`some s` for a content string `s` (the guard also rejects `s = ""`,
since an empty string is falsy in Python).  A run of the consumption
loop is the list of chunks processed before the stream either signals
end-of-stream or the `TimeoutException` of the `timeout` context manager
fires.
-/

/-- How the consumption loop of `create_completion` stops: the channel
signals end-of-stream, or the SIGALRM-based `TimeoutException` fires. -/
inductive StreamEnd where
  | eos
  | timedOut
  deriving DecidableEq, Repr

/-- The mutable state of `create_completion` while streaming:
`full_response` is the in-memory accumulator, `sink` the contents
written (and flushed) to `response.txt` so far. -/
structure RunState where
  full_response : String
  sink : String
  deriving DecidableEq, Repr

/-- One iteration of `for chunk in completion`: when the chunk carries
truthy content, append it to `full_response`, write it to the response
file and flush; otherwise do nothing. -/
def processChunk (st : RunState) (chunk : Option String) : RunState :=
  match chunk with
  | some s =>
      if s ≠ "" then
        { full_response := st.full_response ++ s, sink := st.sink ++ s }
      else
        st
  | none => st

/-- Embedding of `create_completion`: starting from an empty accumulator and a fresh
`response.txt`, consume the delivered chunks in order; on end-of-stream
return `full_response`, on `TimeoutException` print a notice and
`return None`.  The second component is the final contents of the
durable sink, which survives either way. -/
def create_completion (chunks : List (Option String)) (ending : StreamEnd) :
    Option String × String :=
  let final := chunks.foldl processChunk ⟨"", ""⟩
  match ending with
  | .eos => (some final.full_response, final.sink)
  | .timedOut => (none, final.sink)

/-- Python `str.strip()`: remove leading and trailing whitespace. -/
def strip (s : String) : String :=
  ⟨((s.data.dropWhile Char.isWhitespace).reverse.dropWhile
      Char.isWhitespace).reverse⟩

/-- Embedding of `get_prompt`: read `prompt.txt` and return its stripped contents, or
`None` when reading raises.  The argument is `none` when the read fails
and `some content` otherwise. -/
def get_prompt (promptFile : Option String) : Option String :=
  match promptFile with
  | some content => some (strip content)
  | none => none

/-- The prompt-validation path of `main`: after `prompt = get_prompt()`,
the guard `if prompt is None` aborts with "Error: Prompt is empty";
otherwise `create_completion(openai, model, prompt, ...)` is invoked,
contacting the completion capability.  Returns the prompt handed to the
channel, or `none` when `main` returned before any channel activity. -/
def main_prompt_to_channel (promptFile : Option String) : Option String :=
  match get_prompt promptFile with
  | none => none
  | some p => some p

/-- Unfolding `String.join` on the head of the list. -/
theorem join_cons_eq (a : String) (l : List String) :
    String.join (a :: l) = a ++ String.join l := by
  apply String.ext
  simp [String.data_append]

/-- Invariant of the consumption loop: each iteration appends the same
text to the accumulator and to the durable sink, so equality of the two
is preserved. -/
theorem foldl_preserves_sink_eq :
    ∀ (chunks : List (Option String)) (st : RunState),
      st.sink = st.full_response →
      (chunks.foldl processChunk st).sink =
        (chunks.foldl processChunk st).full_response := by
  intro chunks
  induction chunks with
  | nil =>
      intro st h
      exact h
  | cons c l ih =>
      intro st h
      rw [List.foldl_cons]
      apply ih
      rcases c with _ | s
      · exact h
      · by_cases hs : s = ""
        · simp [processChunk, hs]
          exact h
        · simp [processChunk, hs, h]

/-- The accumulator after consuming content chunks `frags` is the prior
accumulator followed by the concatenation of `frags` in order (empty
content is skipped by the truthiness guard, which does not change the
concatenation). -/
theorem foldl_some_full_response (frags : List String) :
    ∀ st : RunState,
      ((frags.map some).foldl processChunk st).full_response =
        st.full_response ++ String.join frags := by
  induction frags with
  | nil =>
      intro st
      rw [show String.join [] = "" from rfl, String.append_empty]
      rfl
  | cons s l ih =>
      intro st
      rw [List.map_cons, List.foldl_cons, join_cons_eq]
      by_cases hs : s = ""
      · subst hs
        rw [show processChunk st (some "") = st from rfl, ih st,
          String.empty_append]
      · have hp : processChunk st (some s) =
            ⟨st.full_response ++ s, st.sink ++ s⟩ := by
          simp [processChunk, hs]
        rw [hp, ih]
        exact String.append_assoc st.full_response s (String.join l)

/-- C7: at every point of stream consumption — after any prefix of the
delivered chunks — the contents written to the durable sink equal the
in-memory accumulator, and the sink `create_completion` leaves behind is
exactly the accumulated text: no gaps, no duplicates. -/
theorem sink_matches_accumulator (chunks : List (Option String)) (n : Nat)
    (ending : StreamEnd) :
    ((chunks.take n).foldl processChunk ⟨"", ""⟩).sink =
      ((chunks.take n).foldl processChunk ⟨"", ""⟩).full_response ∧
    (create_completion chunks ending).2 =
      (chunks.foldl processChunk ⟨"", ""⟩).full_response := by
  constructor
  · exact foldl_preserves_sink_eq _ _ rfl
  · have h : (create_completion chunks ending).2 =
        (chunks.foldl processChunk ⟨"", ""⟩).sink := by
      rcases ending with _ | _ <;> rfl
    rw [h]
    exact foldl_preserves_sink_eq _ _ rfl

/-- C8: when the stream delivers fragments `frags` and then signals
end-of-stream before the timeout, `create_completion` returns the
concatenation of all fragments in arrival order — for every fragment
value, including the empty string. -/
theorem complete_concatenates_fragments (frags : List String) :
    (create_completion (frags.map some) StreamEnd.eos).1 =
      some (String.join frags) := by
  have h : (create_completion (frags.map some) StreamEnd.eos).1 =
      some (((frags.map some).foldl processChunk ⟨"", ""⟩).full_response) := rfl
  rw [h, foldl_some_full_response]
  rw [show (RunState.mk "" "").full_response = "" from rfl, String.empty_append]

/-- C1 counterexample: the channel delivers `"Hel"` and then the timeout
fires.  `create_completion` returns `None` — the accumulated partial
text is not carried by the return value (it survives only in the durable
sink `response.txt`). -/
theorem timeout_drops_partial_from_return :
    (create_completion [some "Hel"] StreamEnd.timedOut).1 = none ∧
    (create_completion [some "Hel"] StreamEnd.timedOut).1 ≠ some "Hel" ∧
    (create_completion [some "Hel"] StreamEnd.timedOut).2 = "Hel" := by
  refine ⟨rfl, ?_, rfl⟩
  intro h
  simp [create_completion] at h

/-- C1 (amended): when the deadline elapses before end-of-stream,
`create_completion` stops consuming, catches the `TimeoutException`
rather than letting it escape, and returns `None`; the accumulated
partial text is not in the return value but remains retrievable from the
durable sink, whose contents equal the accumulator. -/
theorem timeout_returns_none_with_sink (chunks : List (Option String)) :
    (create_completion chunks StreamEnd.timedOut).1 = none ∧
    (create_completion chunks StreamEnd.timedOut).2 =
      (chunks.foldl processChunk ⟨"", ""⟩).full_response := by
  refine ⟨rfl, ?_⟩
  exact foldl_preserves_sink_eq chunks _ rfl

/-- C6 (code bug): with `prompt.txt` present but empty, `get_prompt`
returns the empty string, which is not `None`; the guard
`if prompt is None` in `main` therefore passes and
`create_completion` is invoked — the completion capability is contacted
with the empty prompt, no `InvalidRequest` is reported first, despite
the code's own "Error: Prompt is empty" message. -/
theorem empty_prompt_reaches_channel :
    get_prompt (some "") = some "" ∧
    main_prompt_to_channel (some "") = some "" := by
  constructor <;> rfl
